import Mathlib

/-!
Formal model of the Ovarc bookstore inventory pipeline.

The development embeds, as executable Lean definitions, the CSV row
validator and ordinal assignment of `src/workers/csvParserWorker.js`,
the transactional reconciliation of `src/services/inventoryService.js`
(`processRow`, `processCSV`), the upload response policy of
`src/routes/inventory.js`, and the ranking queries of
`src/services/reportService.js`.  JavaScript numeric parsing
(`parseFloat`, `parseInt` with radix 10) is modelled over `ℚ`,
including the `Infinity` literal of the ECMAScript grammar; `NaN` is a
distinguished value.  Database tables are lists of records, autoincrement
ids are explicit counters, and a row transaction either commits (the new
state is returned) or rolls back (the original state is returned).
-/

namespace Ovarc

/-- Result of JavaScript `parseFloat`: `NaN`, `±Infinity`, or a finite
value, with the finite value idealised as a rational number. -/
inductive JSFloat where
  | nan : JSFloat
  | negInf : JSFloat
  | inf : JSFloat
  | fin (q : ℚ) : JSFloat
deriving DecidableEq, BEq, Repr

/-- True when the JavaScript comparison `x < 0` holds (`NaN < 0` is false). -/
def JSFloat.isNegB : JSFloat → Bool
  | .negInf => true
  | .fin q => decide (q < 0)
  | _ => false

/-- True exactly on `NaN`, the JavaScript `isNaN` test. -/
def JSFloat.isNaNB : JSFloat → Bool
  | .nan => true
  | _ => false

/-- Whitespace recognised in front of a numeric literal. -/
def isWsChar (c : Char) : Bool :=
  c == ' ' || c == '\t' || c == '\n' || c == '\r'

/-- Consume an optional sign; returns (isNegative, rest). -/
def splitSign : List Char → Bool × List Char
  | '-' :: cs => (true, cs)
  | '+' :: cs => (false, cs)
  | cs => (false, cs)

/-- Take the longest prefix of decimal digits as digit values. -/
def takeDigits : List Char → List Nat × List Char
  | [] => ([], [])
  | c :: cs =>
    if c.isDigit then
      let r := takeDigits cs
      ((c.toNat - 48) :: r.1, r.2)
    else ([], c :: cs)

/-- Value of a big-endian list of decimal digits. -/
def digitsVal (ds : List Nat) : Nat :=
  ds.foldl (fun a d => a * 10 + d) 0

/-- The character list of the ECMAScript `Infinity` literal. -/
def infinityChars : List Char :=
  ['I', 'n', 'f', 'i', 'n', 'i', 't', 'y']

/-- Parse the longest unsigned decimal-literal prefix
(`digits [. digits] [e sign digits]`), as in `StrUnsignedDecimalLiteral`,
applying the already-consumed sign `neg`; `none` when no digit occurs
before the exponent part.  The rational value is built with `mkRat` so
that it evaluates by kernel reduction. -/
def parseDecLit (neg : Bool) (cs : List Char) : Option ℚ :=
  let ipr := takeDigits cs
  let fpr : List Nat × List Char :=
    match ipr.2 with
    | '.' :: rest => takeDigits rest
    | _ => ([], ipr.2)
  if ipr.1.isEmpty && fpr.1.isEmpty then none
  else
    let ex : Int :=
      match fpr.2 with
      | e :: rest =>
        if e == 'e' || e == 'E' then
          let sr := splitSign rest
          let edr := takeDigits sr.2
          if edr.1.isEmpty then 0
          else if sr.1 then -(digitsVal edr.1 : Int) else (digitsVal edr.1 : Int)
        else 0
      | [] => 0
    let sc : Int := ex - fpr.1.length
    let n : Nat := digitsVal (ipr.1 ++ fpr.1)
    let sn : Int := if neg then -(n : Int) else (n : Int)
    some (if 0 ≤ sc then mkRat (sn * ((10 ^ sc.toNat : Nat) : Int)) 1
          else mkRat sn (10 ^ (-sc).toNat))

/-- JavaScript `parseFloat`: skip whitespace, optional sign, then the
`Infinity` literal or the longest decimal-literal prefix; `NaN` when no
valid prefix exists.  Trailing characters are ignored. -/
def jsParseFloat (s : String) : JSFloat :=
  let cs := (s.toList).dropWhile isWsChar
  let sr := splitSign cs
  if infinityChars.isPrefixOf sr.2 then (if sr.1 then .negInf else .inf)
  else
    match parseDecLit sr.1 sr.2 with
    | none => .nan
    | some q => .fin q

/-- JavaScript `parseInt(s, 10)`: skip whitespace, optional sign, longest
prefix of decimal digits; `none` models `NaN`. -/
def jsParseInt (s : String) : Option Int :=
  let cs := (s.toList).dropWhile isWsChar
  let sr := splitSign cs
  let dr := takeDigits sr.2
  if dr.1.isEmpty then none
  else some (if sr.1 then -(digitsVal dr.1 : Int) else (digitsVal dr.1 : Int))

/-- Normalized CSV row: the seven recognised columns, already trimmed by
the parser (`mapValues`); a missing or empty column is the empty string. -/
structure Row where
  store_name : String
  store_address : String
  book_name : String
  pages : String
  author_name : String
  price : String
  logo : String
deriving DecidableEq, Repr

/-- Names of the required fields that are absent or empty in the row, in
the order checked by `validateRow` in `csvParserWorker.js`. -/
def requiredMissing (row : Row) : List String :=
  ([("store_name", row.store_name), ("book_name", row.book_name),
    ("author_name", row.author_name), ("price", row.price)].filter
      (fun p => p.2 == "")).map (fun p => p.1)

/-- Model of `validateRow` of `csvParserWorker.js`: `none` means valid,
`some msg` carries the error message. -/
def validateRow (row : Row) (rowNumber : Nat) : Option String :=
  let missing := requiredMissing row
  if missing.isEmpty then
    if (jsParseFloat row.price).isNaNB then
      some ("Row " ++ toString rowNumber ++ ": Invalid price value: " ++ row.price)
    else if row.pages == "" then none
    else
      match jsParseInt row.pages with
      | none => some ("Row " ++ toString rowNumber ++ ": Invalid pages value: " ++ row.pages)
      | some p =>
        if p < 1 then
          some ("Row " ++ toString rowNumber ++ ": Invalid pages value: " ++ row.pages)
        else none
  else
    some ("Row " ++ toString rowNumber ++ ": Missing required fields: "
          ++ String.intercalate ", " missing)

/-- Persisted `stores` row (`Store.js`): unique `name`, optional
`address` and `logo`. -/
structure StoreR where
  id : Nat
  name : String
  address : Option String
  logo : Option String
deriving DecidableEq, Repr

/-- Persisted `authors` row (`Author.js`): unique `name`. -/
structure AuthorR where
  id : Nat
  name : String
deriving DecidableEq, Repr

/-- Persisted `books` row (`Book.js`): unique `(name, author_id)`,
optional `pages`. -/
structure BookR where
  id : Nat
  name : String
  pages : Option Int
  author_id : Nat
deriving DecidableEq, Repr

/-- Persisted `store_books` row (`StoreBook.js`): composite primary key
`(store_id, book_id)`, `price DECIMAL(10,2)` non-null with a min-0
validator, `copies INTEGER` non-null default 1 with a min-0 validator,
`sold_out BOOLEAN` non-null default false.  `price` holds the rational
value stored by the `DECIMAL(10,2)` column (see `dec10_2`). -/
structure StoreBookR where
  store_id : Nat
  book_id : Nat
  price : ℚ
  copies : Nat
  sold_out : Bool
deriving DecidableEq, Repr

/-- Round a rational to the nearest integer, halves away from zero: the
rounding a PostgreSQL `numeric` column applies to excess scale digits. -/
def roundAway (x : ℚ) : Int :=
  if 0 ≤ x.num then Int.fdiv (2 * x.num + x.den) (2 * x.den)
  else -(Int.fdiv (-(2 * x.num) + x.den) (2 * x.den))

/-- Conversion performed by the `price DECIMAL(10,2)` column: `NaN` and
`±Infinity` are not representable and make the write fail, a finite
value is rounded to two decimal places (half away from zero) and
overflows when it exceeds eight integer digits. -/
def dec10_2 : JSFloat → Option ℚ
  | .nan => none
  | .inf => none
  | .negInf => none
  | .fin q =>
    let k := roundAway (mkRat (100 * q.num) q.den)
    if k ≤ -(10000000000 : Int) ∨ (10000000000 : Int) ≤ k then none
    else some (mkRat k 100)

/-- Database state: one list per table, plus the autoincrement counters
for the three surrogate-id tables. -/
structure DB where
  stores : List StoreR
  authors : List AuthorR
  books : List BookR
  store_books : List StoreBookR
  nextStoreId : Nat
  nextAuthorId : Nat
  nextBookId : Nat
deriving DecidableEq, Repr

/-- The empty database. -/
def emptyDB : DB :=
  { stores := [], authors := [], books := [], store_books := [],
    nextStoreId := 0, nextAuthorId := 0, nextBookId := 0 }

/-- Counter increments contributed by one row to the `results` object.
In the source these are in-place `++` mutations, performed before the
price check, so they survive even when the row later fails. -/
structure RowDelta where
  storesCreated : Nat
  authorsCreated : Nat
  booksCreated : Nat
  inventoryCreated : Nat
  inventoryUpdated : Nat
deriving DecidableEq, Repr

/-- The `|| null` coercion used for `defaults`: an empty string is
persisted as SQL `NULL`. -/
def emptyToNull (s : String) : Option String :=
  if s == "" then none else some s

/-- Step 1 of `processRow`: `Store.findOrCreate` by `name`, then the two
conditional `update` calls for `logo` and `address`.  Creating a store
with an empty name fails the `notEmpty` validator of `Store.js`.
Returns the new state, the store id, and whether the store was
created. -/
def storeStep (row : Row) (db : DB) : Except String (DB × Nat × Bool) :=
  match db.stores.find? (fun s => s.name == row.store_name) with
  | some s =>
    let s1 := if row.logo ≠ "" ∧ some row.logo ≠ s.logo then
                { s with logo := some row.logo } else s
    let s2 := if row.store_address ≠ "" ∧ some row.store_address ≠ s1.address then
                { s1 with address := some row.store_address } else s1
    let stores' := db.stores.map (fun t => if t.id == s.id then s2 else t)
    .ok ({ db with stores := stores' }, s.id, false)
  | none =>
    if row.store_name == "" then .error "Store name cannot be empty"
    else
      .ok ({ db with
              stores := db.stores ++
                [{ id := db.nextStoreId, name := row.store_name,
                   address := emptyToNull row.store_address,
                   logo := emptyToNull row.logo }],
              nextStoreId := db.nextStoreId + 1 },
           db.nextStoreId, true)

/-- Step 2 of `processRow`: `Author.findOrCreate` by `name`; creation
with an empty name fails the `notEmpty` validator of `Author.js`. -/
def authorStep (row : Row) (db : DB) : Except String (DB × Nat × Bool) :=
  match db.authors.find? (fun a => a.name == row.author_name) with
  | some a => .ok (db, a.id, false)
  | none =>
    if row.author_name == "" then .error "Author name cannot be empty"
    else
      .ok ({ db with
              authors := db.authors ++ [{ id := db.nextAuthorId, name := row.author_name }],
              nextAuthorId := db.nextAuthorId + 1 },
           db.nextAuthorId, true)

/-- Step 3 of `processRow`: `Book.findOrCreate` by `(name, author_id)`,
then the conditional `pages` update.  A written `pages` value must pass
the min-1 validator of `Book.js` (a `NaN` parse always differs from the
stored value, so it is always written and always fails); a null `pages`
is not validated.  Creation also runs the `notEmpty` name validator. -/
def bookStep (row : Row) (db : DB) (authorId : Nat) : Except String (DB × Nat × Bool) :=
  match db.books.find? (fun b => b.name == row.book_name && b.author_id == authorId) with
  | some b =>
    if row.pages == "" then .ok (db, b.id, false)
    else
      match jsParseInt row.pages with
      | none => .error "Pages must be at least 1"
      | some v =>
        if some v = b.pages then .ok (db, b.id, false)
        else if v < 1 then .error "Pages must be at least 1"
        else
          let books' := db.books.map
            (fun t => if t.id == b.id then { t with pages := some v } else t)
          .ok ({ db with books := books' }, b.id, false)
  | none =>
    if row.book_name == "" then .error "Book name cannot be empty"
    else if row.pages == "" then
      .ok ({ db with
              books := db.books ++
                [{ id := db.nextBookId, name := row.book_name,
                   pages := none, author_id := authorId }],
              nextBookId := db.nextBookId + 1 },
           db.nextBookId, true)
    else
      match jsParseInt row.pages with
      | none => .error "Pages must be at least 1"
      | some v =>
        if v < 1 then .error "Pages must be at least 1"
        else
          .ok ({ db with
                  books := db.books ++
                    [{ id := db.nextBookId, name := row.book_name,
                       pages := some v, author_id := authorId }],
                  nextBookId := db.nextBookId + 1 },
               db.nextBookId, true)

/-- Step 5 of `processRow`: find the inventory position by
`(store_id, book_id)`; update `copies + 1`, latest `price`,
`sold_out := false` when present, otherwise create it with `copies = 1`.
The price passed in is the stored `DECIMAL(10,2)` value produced by
`dec10_2`.  Returns the new state and whether the position was
created. -/
def inventoryStep (price : ℚ) (db : DB) (storeId bookId : Nat) : DB × Bool :=
  match db.store_books.find? (fun sb => sb.store_id == storeId && sb.book_id == bookId) with
  | some _ =>
    let sbs' := db.store_books.map
      (fun t => if t.store_id == storeId && t.book_id == bookId then
          { t with copies := t.copies + 1, price := price, sold_out := false }
        else t)
    ({ db with store_books := sbs' }, false)
  | none =>
    let sbs' := db.store_books ++
      [{ store_id := storeId, book_id := bookId, price := price,
         copies := 1, sold_out := false }]
    ({ db with store_books := sbs' }, true)

/-- Model of `InventoryService.processRow`: the find-or-create cascade
inside one transaction.  `commitFails` is the environment's outcome for
the final `transaction.commit()` call; the deterministic embedding of
the program is the fault-free instance `processRow`.  The result is the
error (`none` on commit), the database after commit — the original `db`
whenever the transaction rolls back — and the counter increments applied
to the shared results object, which the rollback does not undo.  A
failed inventory write (`dec10_2` has no value, e.g. an `Infinity`
price) or a failed commit both roll the row back; the error strings for
driver-reported failures are representative, the route never inspects
them. -/
def processRowF (commitFails : Bool) (row : Row) (db : DB) : Option String × DB × RowDelta :=
  match storeStep row db with
  | .error e => (some e, db, ⟨0, 0, 0, 0, 0⟩)
  | .ok r1 =>
    match authorStep row r1.1 with
    | .error e => (some e, db, ⟨if r1.2.2 then 1 else 0, 0, 0, 0, 0⟩)
    | .ok r2 =>
      match bookStep row r2.1 r2.2.1 with
      | .error e =>
        (some e, db, ⟨if r1.2.2 then 1 else 0, if r2.2.2 then 1 else 0, 0, 0, 0⟩)
      | .ok r3 =>
        let d0 : RowDelta :=
          { storesCreated := if r1.2.2 then 1 else 0,
            authorsCreated := if r2.2.2 then 1 else 0,
            booksCreated := if r3.2.2 then 1 else 0,
            inventoryCreated := 0, inventoryUpdated := 0 }
        let p := jsParseFloat row.price
        if p.isNaNB || p.isNegB then
          (some ("Invalid price value: " ++ row.price), db, d0)
        else
          match dec10_2 p with
          | none => (some "numeric field overflow", db, d0)
          | some q =>
            let r4 := inventoryStep q r3.1 r1.2.1 r3.2.1
            let d1 := { d0 with inventoryCreated := if r4.2 then 1 else 0,
                                inventoryUpdated := if r4.2 then 0 else 1 }
            if commitFails then (some "Connection terminated", db, d1)
            else (none, r4.1, d1)

/-- The fault-free execution of one row: every reached commit
succeeds. -/
def processRow (row : Row) (db : DB) : Option String × DB × RowDelta :=
  processRowF false row db

/-- Shape guaranteed for the `pages` field by the validator: absent, or
an integer of at least 1. -/
def pagesOk (row : Row) : Prop :=
  row.pages = "" ∨ ∃ p : Int, jsParseInt row.pages = some p ∧ 1 ≤ p

/-- Shape of a normalized row as produced by the validation stage:
required names non-empty and pages well-formed (the price fields are
constrained separately). -/
def wellFormedRow (row : Row) : Prop :=
  row.store_name ≠ "" ∧ row.book_name ≠ "" ∧ row.author_name ≠ "" ∧ pagesOk row

/-- Aggregate results object of `processCSV`. -/
structure Results where
  processed : Nat
  createdStores : Nat
  createdAuthors : Nat
  createdBooks : Nat
  createdInventory : Nat
  updatedInventory : Nat
  errors : List (Nat × Row × String)
deriving DecidableEq, Repr

/-- Add one row delta to the aggregate counters. -/
def Results.addDelta (res : Results) (d : RowDelta) : Results :=
  { res with
      createdStores := res.createdStores + d.storesCreated,
      createdAuthors := res.createdAuthors + d.authorsCreated,
      createdBooks := res.createdBooks + d.booksCreated,
      createdInventory := res.createdInventory + d.inventoryCreated,
      updatedInventory := res.updatedInventory + d.inventoryUpdated }

/-- The per-row loop of `processCSV`, generic in the row processor: on
success `processed` is incremented, on failure the error is appended,
and processing continues with the next row. -/
def processRowsWith (f : Row → DB → Option String × DB × RowDelta) :
    List (Nat × Row) → DB → Results → DB × Results
  | [], db, res => (db, res)
  | (n, row) :: rest, db, res =>
    let r := f row db
    let res1 := res.addDelta r.2.2
    match r.1 with
    | none => processRowsWith f rest r.2.1 { res1 with processed := res1.processed + 1 }
    | some e =>
      processRowsWith f rest r.2.1 { res1 with errors := res1.errors ++ [(n, row, e)] }

/-- The per-row loop of `processCSV` over the fault-free row
processor. -/
def processRows : List (Nat × Row) → DB → Results → DB × Results :=
  processRowsWith processRow

/-- Validation loop of the worker (`module.exports` of
`csvParserWorker.js`), carried out from data-record index `i`: the row
ordinal is the index plus 2 (row 1 is the header). -/
def workerValidateAux : Nat → List Row → List (Nat × Row) × List (Nat × Row × String)
  | _, [] => ([], [])
  | i, row :: rest =>
    let r := workerValidateAux (i + 1) rest
    match validateRow row (i + 2) with
    | none => ((i + 2, row) :: r.1, r.2)
    | some e => (r.1, (i + 2, row, e) :: r.2)

/-- Partition of the parsed records into validated rows and validation
errors, with ordinals starting at 2. -/
def workerValidate (rows : List Row) : List (Nat × Row) × List (Nat × Row × String) :=
  workerValidateAux 0 rows

/-- Fresh results object, seeded with the validation errors pushed
before the row loop. -/
def initResults (validationErrors : List (Nat × Row × String)) : Results :=
  { processed := 0, createdStores := 0, createdAuthors := 0, createdBooks := 0,
    createdInventory := 0, updatedInventory := 0, errors := validationErrors }

/-- Model of `InventoryService.processCSV` after parsing: validate all
records, then reconcile the valid rows in order. -/
def processCSV (rows : List Row) (db : DB) : DB × Results :=
  let w := workerValidate rows
  processRows w.1 db (initResults w.2)

/-- The batch under an environment in which every reached
`transaction.commit()` fails (`commitFails = true`) or succeeds
(`commitFails = false`; this instance is `processCSV`). -/
def processCSVF (commitFails : Bool) (rows : List Row) (db : DB) : DB × Results :=
  let w := workerValidate rows
  processRowsWith (processRowF commitFails) w.1 db (initResults w.2)

/-- HTTP answer computed by the upload route. -/
structure UploadResponse where
  success : Bool
  status : Nat
  results : Results
deriving DecidableEq, Repr

/-- Response policy of `router.post` in `routes/inventory.js`: overall
failure (400) exactly when no row was processed and at least one error
occurred; otherwise success (200), with the results always attached. -/
def uploadResponse (res : Results) : UploadResponse :=
  if res.processed = 0 ∧ res.errors.length > 0 then
    { success := false, status := 400, results := res }
  else
    { success := true, status := 200, results := res }

/-- Inventory positions visible to the report queries: the rows of the
store with `sold_out = false` (the `where` clause of both queries), in
table insertion order. -/
def availPositions (db : DB) (sid : Nat) : List StoreBookR :=
  db.store_books.filter (fun sb => sb.store_id == sid && sb.sold_out == false)

/-- Non-increasing-price order between positions, the key of
`ORDER BY price DESC`. -/
def priceGe (a b : StoreBookR) : Prop :=
  b.price ≤ a.price

instance : DecidableRel priceGe := fun a b => by
  unfold priceGe; infer_instance

instance : IsRefl StoreBookR priceGe := by
  constructor
  intro a
  exact le_refl _

/-- Relational embedding of the query of
`ReportService.getTopPriciestBooks`
(`WHERE store_id, sold_out = false ORDER BY price DESC LIMIT 5`): the
admissible result sets.  SQL fixes only the sort key, so any ordering of
the store's non-sold-out positions that is non-increasing in price,
truncated to five rows, is a possible output — the engine chooses the
order of price ties. -/
def priciestQuery (db : DB) (sid : Nat) (out : List StoreBookR) : Prop :=
  ∃ l : List StoreBookR, l.Perm (availPositions db sid) ∧
    l.Sorted priceGe ∧ out = l.take 5

/-- Join rows of the prolific-authors query contributed by one author:
the author's books paired with the store's non-sold-out positions of
those books. -/
def authorJoinRows (db : DB) (sid : Nat) (a : AuthorR) : List (BookR × StoreBookR) :=
  (db.books.filter (fun b => b.author_id == a.id)).flatMap
    (fun b =>
      (db.store_books.filter
        (fun sb => sb.book_id == b.id && sb.store_id == sid && sb.sold_out == false)).map
          (fun sb => (b, sb)))

/-- Aggregate row of the prolific-authors query. -/
structure AuthorAgg where
  name : String
  bookCount : Nat
  totalCopies : Nat
deriving DecidableEq, Repr

/-- One `GROUP BY` group: author name, `COUNT(DISTINCT sb.book_id)` and
`SUM(sb.copies)` over the author's join rows. -/
def authorAgg (db : DB) (sid : Nat) (a : AuthorR) : AuthorAgg :=
  { name := a.name,
    bookCount := (((authorJoinRows db sid a).map (fun r => r.2.book_id)).dedup).length,
    totalCopies := ((authorJoinRows db sid a).map (fun r => r.2.copies)).sum }

/-- The groups of the prolific-authors query: authors with at least one
join row (`INNER JOIN`), each with its aggregates. -/
def prolificGroups (db : DB) (sid : Nat) : List AuthorAgg :=
  (db.authors.filter (fun a => !(authorJoinRows db sid a).isEmpty)).map (authorAgg db sid)

/-- Sort relation realising `ORDER BY book_count DESC, total_copies
DESC` over index-paired groups, remaining ties broken by position. -/
def prolificRel (p q : Nat × AuthorAgg) : Prop :=
  q.2.bookCount < p.2.bookCount ∨
    (p.2.bookCount = q.2.bookCount ∧
      (q.2.totalCopies < p.2.totalCopies ∨
        (p.2.totalCopies = q.2.totalCopies ∧ p.1 ≤ q.1)))

instance : DecidableRel prolificRel := fun p q => by
  unfold prolificRel; infer_instance

/-- Sorted, truncated groups of `getTopProlificAuthors`, kept paired
with their position among the groups. -/
def prolificPairs (db : DB) (sid : Nat) : List (Nat × AuthorAgg) :=
  (((prolificGroups db sid).enum).insertionSort prolificRel).take 5

/-- Model of `ReportService.getTopProlificAuthors`: authors of the
store's non-sold-out inventory ranked by distinct book count, then
total copies, first five. -/
def getTopProlificAuthors (db : DB) (sid : Nat) : List AuthorAgg :=
  (prolificPairs db sid).map (fun p => p.2)

/-- Sample valid row used by concrete witnesses. -/
def rowGood : Row :=
  { store_name := "BookWorld", store_address := "12 Main St", book_name := "Gatsby",
    pages := "180", author_name := "Fitzgerald", price := "15.99", logo := "" }

/-- Sample row with a negative price: validation accepts it, the
reconciliation price check rejects it. -/
def rowNegPrice : Row :=
  { store_name := "S", store_address := "", book_name := "B",
    pages := "", author_name := "A", price := "-1", logo := "" }

/-- Row whose price field is the literal `Infinity`: `parseFloat` yields
a non-finite number, yet `isNaN` is false, so validation accepts it. -/
def rowInf : Row :=
  { store_name := "S", store_address := "", book_name := "B",
    pages := "", author_name := "A", price := "Infinity", logo := "" }

/-- Store table with one fully populated store, for the C10 witness. -/
def db0 : DB :=
  { stores := [{ id := 0, name := "S", address := some "A", logo := some "L" }],
    authors := [], books := [], store_books := [],
    nextStoreId := 1, nextAuthorId := 0, nextBookId := 0 }

/-- Row targeting the existing store with empty address and logo. -/
def rowEmptyAddr : Row :=
  { store_name := "S", store_address := "", book_name := "B",
    pages := "", author_name := "A", price := "3", logo := "" }

/-- Database with one store, author, book and a sold-out inventory
position holding three copies, for the C2 witness. -/
def db1ex : DB :=
  { stores := [{ id := 0, name := "S", address := none, logo := none }],
    authors := [{ id := 0, name := "A" }],
    books := [{ id := 0, name := "B", pages := none, author_id := 0 }],
    store_books := [{ store_id := 0, book_id := 0, price := 5,
                      copies := 3, sold_out := true }],
    nextStoreId := 1, nextAuthorId := 1, nextBookId := 1 }

/-- Row repeating the (store, book) pair of `db1ex` at a new price. -/
def rowRepeat : Row :=
  { store_name := "S", store_address := "", book_name := "B",
    pages := "", author_name := "A", price := "2", logo := "" }

/-- The database reached after ingesting the same row `k` times into an
empty database: one store, one author, one book, one inventory position
with `copies = k`. -/
def singletonInv (row : Row) (q : ℚ) (k : Nat) : DB :=
  { stores := [{ id := 0, name := row.store_name,
                 address := emptyToNull row.store_address,
                 logo := emptyToNull row.logo }],
    authors := [{ id := 0, name := row.author_name }],
    books := [{ id := 0, name := row.book_name,
                pages := if row.pages == "" then none else jsParseInt row.pages,
                author_id := 0 }],
    store_books := [{ store_id := 0, book_id := 0, price := q,
                      copies := k, sold_out := false }],
    nextStoreId := 1, nextAuthorId := 1, nextBookId := 1 }

/-- Reconcile the same row `N` times in a row, starting from `db`. -/
def iterRow (row : Row) : Nat → DB → DB
  | 0, db => db
  | k + 1, db => iterRow row k ((processRow row db).2.1)

/-- Store-book table realising the spec scenario: prices 9.99, 25.00,
25.00, 3.50 with one sold-out position, all in store 1. -/
def dbPrices : DB :=
  { stores := [{ id := 1, name := "S", address := none, logo := none }],
    authors := [{ id := 0, name := "A" }],
    books := [{ id := 0, name := "B0", pages := none, author_id := 0 },
              { id := 1, name := "B1", pages := none, author_id := 0 },
              { id := 2, name := "B2", pages := none, author_id := 0 },
              { id := 3, name := "B3", pages := none, author_id := 0 }],
    store_books := [{ store_id := 1, book_id := 0, price := mkRat 999 100,
                      copies := 1, sold_out := false },
                    { store_id := 1, book_id := 1, price := 25,
                      copies := 1, sold_out := false },
                    { store_id := 1, book_id := 2, price := 25,
                      copies := 1, sold_out := true },
                    { store_id := 1, book_id := 3, price := mkRat 35 10,
                      copies := 1, sold_out := false }],
    nextStoreId := 2, nextAuthorId := 1, nextBookId := 4 }

/-- Position of `dbTie` inserted first: book 0 at price 25. -/
def sbTie0 : StoreBookR :=
  { store_id := 1, book_id := 0, price := 25, copies := 1, sold_out := false }

/-- Position of `dbTie` inserted second: book 1 at the same price 25. -/
def sbTie1 : StoreBookR :=
  { store_id := 1, book_id := 1, price := 25, copies := 1, sold_out := false }

/-- Store-book table with two positions at the same price, to exercise
tie order of the priciest query. -/
def dbTie : DB :=
  { stores := [{ id := 1, name := "S", address := none, logo := none }],
    authors := [{ id := 0, name := "A" }],
    books := [{ id := 0, name := "B0", pages := none, author_id := 0 },
              { id := 1, name := "B1", pages := none, author_id := 0 }],
    store_books := [sbTie0, sbTie1],
    nextStoreId := 2, nextAuthorId := 1, nextBookId := 2 }

/-- One admissible answer of the priciest query on `dbPrices`: the three
available positions in descending price order. -/
def priciestSample : List StoreBookR :=
  [{ store_id := 1, book_id := 1, price := 25, copies := 1, sold_out := false },
   { store_id := 1, book_id := 0, price := mkRat 999 100, copies := 1, sold_out := false },
   { store_id := 1, book_id := 3, price := mkRat 35 10, copies := 1, sold_out := false }]

/-- Table realising the spec scenario for prolific authors: author A has
two distinct books with three total copies, author B two distinct books
with five total copies, all available in store 1. -/
def dbAuthors : DB :=
  { stores := [{ id := 1, name := "S", address := none, logo := none }],
    authors := [{ id := 0, name := "A" }, { id := 1, name := "B" }],
    books := [{ id := 0, name := "A1", pages := none, author_id := 0 },
              { id := 1, name := "A2", pages := none, author_id := 0 },
              { id := 2, name := "B1", pages := none, author_id := 1 },
              { id := 3, name := "B2", pages := none, author_id := 1 }],
    store_books := [{ store_id := 1, book_id := 0, price := 1,
                      copies := 1, sold_out := false },
                    { store_id := 1, book_id := 1, price := 1,
                      copies := 2, sold_out := false },
                    { store_id := 1, book_id := 2, price := 1,
                      copies := 2, sold_out := false },
                    { store_id := 1, book_id := 3, price := 1,
                      copies := 3, sold_out := false }],
    nextStoreId := 2, nextAuthorId := 2, nextBookId := 4 }

instance : IsTotal (Nat × AuthorAgg) prolificRel := by
  constructor
  intro p q
  unfold prolificRel
  rcases Nat.lt_trichotomy p.2.bookCount q.2.bookCount with h | h | h
  · omega
  · rcases Nat.lt_trichotomy p.2.totalCopies q.2.totalCopies with h' | h' | h' <;> omega
  · omega

instance : IsTrans (Nat × AuthorAgg) prolificRel := by
  constructor
  intro p q r hpq hqr
  unfold prolificRel at hpq hqr ⊢
  omega

instance : IsRefl (Nat × AuthorAgg) prolificRel := by
  constructor
  intro p
  unfold prolificRel
  omega

theorem processRowsWith_db_congr (f : Row → DB → Option String × DB × RowDelta)
    (l : List (Nat × Row)) (db : DB) (res res' : Results) :
    (processRowsWith f l db res).1 = (processRowsWith f l db res').1 := by
  induction l generalizing db res res' with
  | nil => rfl
  | cons hd tl ih =>
    obtain ⟨n, row⟩ := hd
    simp only [processRowsWith]
    cases h : (f row db).1 <;> simp only [h] <;> exact ih _ _ _

theorem storeStep_ok (row : Row) (db : DB) (h : row.store_name ≠ "") :
    ∃ r, storeStep row db = .ok r := by
  unfold storeStep
  cases hf : db.stores.find? (fun s => s.name == row.store_name) with
  | some s => exact ⟨_, rfl⟩
  | none =>
    rw [if_neg (by simpa using h)]
    exact ⟨_, rfl⟩

theorem authorStep_ok (row : Row) (db : DB) (h : row.author_name ≠ "") :
    ∃ r, authorStep row db = .ok r := by
  unfold authorStep
  cases hf : db.authors.find? (fun a => a.name == row.author_name) with
  | some a => exact ⟨_, rfl⟩
  | none =>
    rw [if_neg (by simpa using h)]
    exact ⟨_, rfl⟩

theorem pages_ne_of_parse (row : Row) (v : Int) (hv : jsParseInt row.pages = some v) :
    ¬ ((row.pages == "") = true) := by
  intro hx
  have hx' : row.pages = "" := by simpa using hx
  have h0 : jsParseInt "" = none := by decide
  rw [hx', h0] at hv
  cases hv

theorem bookStep_ok (row : Row) (db : DB) (aid : Nat) (hb : row.book_name ≠ "")
    (hpg : pagesOk row) : ∃ r, bookStep row db aid = .ok r := by
  unfold bookStep
  cases hf : db.books.find? (fun b => b.name == row.book_name && b.author_id == aid) with
  | some b =>
    dsimp only
    rcases hpg with hpg | ⟨v, hv, hv1⟩
    · rw [if_pos (by simpa using hpg)]
      exact ⟨_, rfl⟩
    · rw [if_neg (pages_ne_of_parse row v hv), hv]
      dsimp only
      by_cases he : some v = b.pages
      · rw [if_pos he]
        exact ⟨_, rfl⟩
      · rw [if_neg he, if_neg (by omega : ¬ v < 1)]
        exact ⟨_, rfl⟩
  | none =>
    dsimp only
    rw [if_neg (by simpa using hb)]
    rcases hpg with hpg | ⟨v, hv, hv1⟩
    · rw [if_pos (by simpa using hpg)]
      exact ⟨_, rfl⟩
    · rw [if_neg (pages_ne_of_parse row v hv), hv]
      dsimp only
      rw [if_neg (by omega : ¬ v < 1)]
      exact ⟨_, rfl⟩

theorem validateRow_wellFormed (row : Row) (n : Nat)
    (h : validateRow row n = none) : wellFormedRow row := by
  unfold validateRow at h
  by_cases hm : (requiredMissing row).isEmpty = true
  case neg =>
    rw [if_neg hm] at h
    cases h
  case pos =>
    rw [if_pos hm] at h
    have hs : row.store_name ≠ "" := by
      intro hx
      simp [requiredMissing, hx] at hm
    have hb : row.book_name ≠ "" := by
      intro hx
      simp [requiredMissing, hx] at hm
    have ha : row.author_name ≠ "" := by
      intro hx
      simp [requiredMissing, hx] at hm
    by_cases hna : (jsParseFloat row.price).isNaNB = true
    · rw [if_pos hna] at h
      cases h
    · rw [if_neg hna] at h
      by_cases hpg : (row.pages == "") = true
      · exact ⟨hs, hb, ha, Or.inl (by simpa using hpg)⟩
      · rw [if_neg hpg] at h
        cases hpi : jsParseInt row.pages <;> rw [hpi] at h <;> dsimp only at h
        · cases h
        · rename_i p
          by_cases hp1 : p < 1
          · rw [if_pos hp1] at h
            cases h
          · exact ⟨hs, hb, ha, Or.inr ⟨p, hpi, by omega⟩⟩

theorem processRow_priceFail (row : Row) (db : DB) (hw : wellFormedRow row)
    (h : ((jsParseFloat row.price).isNaNB || (jsParseFloat row.price).isNegB) = true) :
    (processRow row db).1 = some ("Invalid price value: " ++ row.price) ∧
    (processRow row db).2.1 = db := by
  obtain ⟨h1, h2, h3, hpg⟩ := hw
  obtain ⟨r1, hr1⟩ := storeStep_ok row db h1
  obtain ⟨r2, hr2⟩ := authorStep_ok row r1.1 h3
  obtain ⟨r3, hr3⟩ := bookStep_ok row r2.1 r2.2.1 h2 hpg
  constructor <;> simp [processRow, processRowF, hr1, hr2, hr3, h]

/-- Claim C1: a normalized row (required names non-empty, pages
well-formed) whose price parses to `NaN` or to a negative value fails
with a reason naming the price, the transaction is rolled back so the
persisted state is unchanged, and the batch continues with the
remaining rows as if from the same state. -/
theorem claim_c1_price_failure_rolls_back (row : Row) (db : DB)
    (hw : wellFormedRow row)
    (h : (jsParseFloat row.price).isNaNB = true ∨ (jsParseFloat row.price).isNegB = true) :
    (processRow row db).1 = some ("Invalid price value: " ++ row.price) ∧
    (processRow row db).2.1 = db ∧
    ∀ (n : Nat) (rest : List (Nat × Row)) (res : Results),
      (processRows ((n, row) :: rest) db res).1 = (processRows rest db res).1 := by
  have hb : ((jsParseFloat row.price).isNaNB || (jsParseFloat row.price).isNegB) = true := by
    rcases h with h | h <;> simp [h]
  have hpf := processRow_priceFail row db hw hb
  refine ⟨hpf.1, hpf.2, ?_⟩
  intro n rest res
  unfold processRows
  simp only [processRowsWith, hpf.1, hpf.2]
  exact processRowsWith_db_congr processRow rest db _ res

theorem claim_c1_witness :
    ((jsParseFloat rowNegPrice.price).isNaNB = true ∨
      (jsParseFloat rowNegPrice.price).isNegB = true) ∧
    (processRow rowNegPrice emptyDB).2.1 = emptyDB :=
  ⟨Or.inr (by decide),
   (claim_c1_price_failure_rolls_back rowNegPrice emptyDB
      ⟨by decide, by decide, by decide, Or.inl rfl⟩ (Or.inr (by decide))).2.1⟩

/-- Claim C5: the upload route reports overall failure exactly when no
row was processed and at least one error occurred; one successful row
forces an overall success, and the per-row errors stay attached to the
response in either case. -/
theorem claim_c5_overall_failure_iff (res : Results) :
    ((uploadResponse res).success = false ↔ (res.processed = 0 ∧ 0 < res.errors.length)) ∧
    (0 < res.processed → (uploadResponse res).success = true) ∧
    (uploadResponse res).results = res := by
  unfold uploadResponse
  by_cases hc : res.processed = 0 ∧ res.errors.length > 0
  · rw [if_pos hc]
    exact ⟨by simp [hc.1, hc.2], fun hp => by omega, rfl⟩
  · rw [if_neg hc]
    exact ⟨⟨fun h => by simp at h, fun h => absurd h hc⟩, fun _ => rfl, rfl⟩

theorem claim_c5_witness :
    (uploadResponse
        { processed := 1, createdStores := 1, createdAuthors := 1, createdBooks := 1,
          createdInventory := 1, updatedInventory := 0,
          errors := [(3, rowNegPrice, "Invalid price value: -1")] }).success = true :=
  (claim_c5_overall_failure_iff _).2.1 (by decide)

theorem processRow_invDelta (row : Row) (db : DB) :
    (processRow row db).2.2.inventoryCreated + (processRow row db).2.2.inventoryUpdated
      = if (processRow row db).1 = none then 1 else 0 := by
  unfold processRow processRowF
  cases h1 : storeStep row db with
  | error e => simp
  | ok r1 =>
    dsimp only
    cases h2 : authorStep row r1.1 with
    | error e => simp
    | ok r2 =>
      dsimp only
      cases h3 : bookStep row r2.1 r2.2.1 with
      | error e => simp
      | ok r3 =>
        dsimp only
        by_cases hg : ((jsParseFloat row.price).isNaNB || (jsParseFloat row.price).isNegB) = true
        · simp [hg]
        · have hg' : ((jsParseFloat row.price).isNaNB || (jsParseFloat row.price).isNegB)
              = false := by simpa using hg
          simp only [hg', Bool.false_eq_true, if_false]
          cases hd : dec10_2 (jsParseFloat row.price) with
          | none => simp
          | some q =>
            dsimp only
            cases h4 : (inventoryStep q r3.1 r1.2.1 r3.2.1).2 <;> simp [h4]

theorem processRowsWith_invariant (f : Row → DB → Option String × DB × RowDelta)
    (hf : ∀ (row : Row) (db : DB),
        (f row db).2.2.inventoryCreated + (f row db).2.2.inventoryUpdated
          = if (f row db).1 = none then 1 else 0)
    (l : List (Nat × Row)) (db : DB) (res : Results)
    (h : res.processed = res.createdInventory + res.updatedInventory) :
    (processRowsWith f l db res).2.processed
      = (processRowsWith f l db res).2.createdInventory
        + (processRowsWith f l db res).2.updatedInventory := by
  induction l generalizing db res with
  | nil => exact h
  | cons hd tl ih =>
    obtain ⟨n, row⟩ := hd
    have hd1 := hf row db
    simp only [processRowsWith]
    cases he : (f row db).1 with
    | none =>
      rw [he] at hd1
      simp at hd1
      simp only [he]
      apply ih
      simp [Results.addDelta]
      omega
    | some e =>
      rw [he] at hd1
      simp at hd1
      simp only [he]
      apply ih
      simp [Results.addDelta]
      omega

/-- Claim C9, counterexample: if the commit of a row fails after the
inventory write, the JS has already incremented `created.inventory` but
the row is counted as an error, so `processed` falls short of the
inventory counters: on a one-row batch whose commit fails, `processed =
0` while `created.inventory = 1`. -/
theorem claim_c9_counterexample :
    (processCSVF true [rowGood] emptyDB).2.processed = 0 ∧
    (processCSVF true [rowGood] emptyDB).2.createdInventory = 1 ∧
    (processCSVF true [rowGood] emptyDB).2.updatedInventory = 0 := by
  refine ⟨?_, ?_, ?_⟩ <;> decide

/-- Claim C9, amended: in a fault-free execution (every reached
`transaction.commit()` succeeds), every committed row increments exactly
one of the inventory counters and every failed row none of them, so the
processed count of a batch equals created inventory plus updated
inventory; when a commit fails after the inventory write, the
already-incremented counter is not rolled back and the equation can
fail. -/
theorem claim_c9_processed_eq_inventory_counts :
    (∀ (row : Row) (db : DB),
        (processRow row db).2.2.inventoryCreated + (processRow row db).2.2.inventoryUpdated
          = if (processRow row db).1 = none then 1 else 0) ∧
    ∀ (rows : List Row) (db : DB),
      (processCSV rows db).2.processed
        = (processCSV rows db).2.createdInventory + (processCSV rows db).2.updatedInventory := by
  refine ⟨processRow_invDelta, ?_⟩
  intro rows db
  unfold processCSV processRows
  exact processRowsWith_invariant processRow processRow_invDelta _ _ _ rfl

theorem workerAux_valid_mem (rows : List Row) :
    ∀ (i k : Nat) (h : k < rows.length),
      validateRow (rows.get ⟨k, h⟩) (i + k + 2) = none →
      (i + k + 2, rows.get ⟨k, h⟩) ∈ (workerValidateAux i rows).1 := by
  induction rows with
  | nil => intro i k h; exact absurd h (by simp)
  | cons hd tl ih =>
    intro i k h hv
    cases k with
    | zero =>
      simp only [List.get] at hv ⊢
      rw [show i + 0 + 2 = i + 2 from by omega] at hv ⊢
      simp only [workerValidateAux, hv]
      exact List.mem_cons_self _ _
    | succ k' =>
      have h' : k' < tl.length := by simpa using h
      simp only [List.get_cons_succ] at hv ⊢
      rw [show i + (k' + 1) + 2 = (i + 1) + k' + 2 from by omega] at hv ⊢
      have hm := ih (i + 1) k' h' hv
      cases hv' : validateRow hd (i + 2) with
      | none =>
        simp only [workerValidateAux, hv']
        exact List.mem_cons_of_mem _ hm
      | some e =>
        simp only [workerValidateAux, hv']
        exact hm

theorem workerAux_invalid_mem (rows : List Row) :
    ∀ (i k : Nat) (h : k < rows.length) (msg : String),
      validateRow (rows.get ⟨k, h⟩) (i + k + 2) = some msg →
      (i + k + 2, rows.get ⟨k, h⟩, msg) ∈ (workerValidateAux i rows).2 := by
  induction rows with
  | nil => intro i k h; exact absurd h (by simp)
  | cons hd tl ih =>
    intro i k h msg hv
    cases k with
    | zero =>
      simp only [List.get] at hv ⊢
      rw [show i + 0 + 2 = i + 2 from by omega] at hv ⊢
      simp only [workerValidateAux, hv]
      exact List.mem_cons_self _ _
    | succ k' =>
      have h' : k' < tl.length := by simpa using h
      simp only [List.get_cons_succ] at hv ⊢
      rw [show i + (k' + 1) + 2 = (i + 1) + k' + 2 from by omega] at hv ⊢
      have hm := ih (i + 1) k' h' msg hv
      cases hv' : validateRow hd (i + 2) with
      | none =>
        simp only [workerValidateAux, hv']
        exact hm
      | some e =>
        simp only [workerValidateAux, hv']
        exact List.mem_cons_of_mem _ hm

theorem workerAux_mem_valid (rows : List Row) :
    ∀ (i n : Nat) (r : Row), (n, r) ∈ (workerValidateAux i rows).1 →
      ∃ k, ∃ h : k < rows.length, n = i + k + 2 ∧ rows.get ⟨k, h⟩ = r := by
  induction rows with
  | nil => intro i n r hm; simp [workerValidateAux] at hm
  | cons hd tl ih =>
    intro i n r hm
    cases hv' : validateRow hd (i + 2) with
    | none =>
      simp only [workerValidateAux, hv', List.mem_cons] at hm
      rcases hm with hm | hm
      · refine ⟨0, by simp, ?_, ?_⟩
        · have := congrArg Prod.fst hm
          simpa using this
        · have := congrArg Prod.snd hm
          simpa using this.symm
      · obtain ⟨k, h, hn, hr⟩ := ih (i + 1) n r hm
        exact ⟨k + 1, by simpa using h, by omega, by simpa using hr⟩
    | some e =>
      simp only [workerValidateAux, hv'] at hm
      obtain ⟨k, h, hn, hr⟩ := ih (i + 1) n r hm
      exact ⟨k + 1, by simpa using h, by omega, by simpa using hr⟩

theorem workerAux_mem_invalid (rows : List Row) :
    ∀ (i n : Nat) (r : Row) (msg : String), (n, r, msg) ∈ (workerValidateAux i rows).2 →
      ∃ k, ∃ h : k < rows.length, n = i + k + 2 ∧ rows.get ⟨k, h⟩ = r := by
  induction rows with
  | nil => intro i n r msg hm; simp [workerValidateAux] at hm
  | cons hd tl ih =>
    intro i n r msg hm
    cases hv' : validateRow hd (i + 2) with
    | none =>
      simp only [workerValidateAux, hv'] at hm
      obtain ⟨k, h, hn, hr⟩ := ih (i + 1) n r msg hm
      exact ⟨k + 1, by simpa using h, by omega, by simpa using hr⟩
    | some e =>
      simp only [workerValidateAux, hv', List.mem_cons] at hm
      rcases hm with hm | hm
      · refine ⟨0, by simp, ?_, ?_⟩
        · have := congrArg Prod.fst hm
          simpa using this
        · have := congrArg (fun p => p.2.1) hm
          simpa using this.symm
      · obtain ⟨k, h, hn, hr⟩ := ih (i + 1) n r msg hm
        exact ⟨k + 1, by simpa using h, by omega, by simpa using hr⟩

/-- Claim C8: the k-th data record (0-indexed) carries ordinal `k + 2`
in whichever worker output it lands in, and conversely every ordinal in
either output locates its record in the source: ordinal `n` belongs to
record `n - 2`, so the first record has ordinal 2. -/
theorem claim_c8_row_ordinals (rows : List Row) :
    (∀ (k : Nat) (h : k < rows.length),
      (validateRow (rows.get ⟨k, h⟩) (k + 2) = none →
        (k + 2, rows.get ⟨k, h⟩) ∈ (workerValidate rows).1) ∧
      ∀ msg, validateRow (rows.get ⟨k, h⟩) (k + 2) = some msg →
        (k + 2, rows.get ⟨k, h⟩, msg) ∈ (workerValidate rows).2) ∧
    (∀ (n : Nat) (r : Row), (n, r) ∈ (workerValidate rows).1 →
      ∃ k, ∃ h : k < rows.length, n = k + 2 ∧ rows.get ⟨k, h⟩ = r) ∧
    (∀ (n : Nat) (r : Row) (msg : String), (n, r, msg) ∈ (workerValidate rows).2 →
      ∃ k, ∃ h : k < rows.length, n = k + 2 ∧ rows.get ⟨k, h⟩ = r) := by
  refine ⟨?_, ?_, ?_⟩
  · intro k h
    constructor
    · intro hv
      have := workerAux_valid_mem rows 0 k h (by simpa using hv)
      simpa using this
    · intro msg hv
      have := workerAux_invalid_mem rows 0 k h msg (by simpa using hv)
      simpa using this
  · intro n r hm
    obtain ⟨k, h, hn, hr⟩ := workerAux_mem_valid rows 0 n r hm
    exact ⟨k, h, by omega, hr⟩
  · intro n r msg hm
    obtain ⟨k, h, hn, hr⟩ := workerAux_mem_invalid rows 0 n r msg hm
    exact ⟨k, h, by omega, hr⟩

theorem claim_c8_witness :
    (2, rowGood) ∈ (workerValidate [rowGood, rowNegPrice]).1 ∧
    (3, rowNegPrice) ∈ (workerValidate [rowGood, rowNegPrice]).1 :=
  ⟨((claim_c8_row_ordinals [rowGood, rowNegPrice]).1 0 (by decide)).1 (by decide),
   ((claim_c8_row_ordinals [rowGood, rowNegPrice]).1 1 (by decide)).1 (by decide)⟩

/-- Claim C4, counterexample: `validateRow` accepts a row whose price
parses to `Infinity`, which is not a finite number, against the claimed
equivalence with a finite parse. -/
theorem claim_c4_counterexample :
    validateRow rowInf 2 = none ∧ jsParseFloat rowInf.price = JSFloat.inf := by
  constructor <;> decide

theorem isNaNB_eq_true_iff (x : JSFloat) : x.isNaNB = true ↔ x = .nan := by
  cases x <;> simp [JSFloat.isNaNB]

theorem requiredMissing_isEmpty (row : Row) :
    (requiredMissing row).isEmpty = true ↔
      (row.store_name ≠ "" ∧ row.book_name ≠ "" ∧ row.author_name ≠ "" ∧ row.price ≠ "") := by
  unfold requiredMissing
  by_cases h1 : row.store_name = "" <;> by_cases h2 : row.book_name = "" <;>
    by_cases h3 : row.author_name = "" <;> by_cases h4 : row.price = "" <;>
    simp [h1, h2, h3, h4]

/-- Claim C4, amended: `validateRow` accepts a row exactly when the four
required fields are non-empty, the price does not parse to `NaN` (a
non-finite `Infinity` is accepted at this stage), and a non-empty pages
field parses to an integer at least 1; every rejection message carries
the row ordinal. -/
theorem claim_c4_validate_characterisation (row : Row) (n : Nat) :
    (validateRow row n = none ↔
      (row.store_name ≠ "" ∧ row.book_name ≠ "" ∧ row.author_name ≠ "" ∧ row.price ≠ "" ∧
       jsParseFloat row.price ≠ JSFloat.nan ∧
       (row.pages ≠ "" → ∃ p : Int, jsParseInt row.pages = some p ∧ 1 ≤ p))) ∧
    ∀ msg, validateRow row n = some msg →
      ∃ rest, msg = "Row " ++ toString n ++ ": " ++ rest := by
  unfold validateRow
  by_cases hm : (requiredMissing row).isEmpty = true
  · obtain ⟨e1, e2, e3, e4⟩ := (requiredMissing_isEmpty row).mp hm
    rw [if_pos hm]
    cases hnan : (jsParseFloat row.price).isNaNB with
    | true =>
      have hx : jsParseFloat row.price = .nan := (isNaNB_eq_true_iff _).mp hnan
      simp only [if_pos rfl]
      constructor
      · simp [hx]
      · intro msg hmsg
        cases hmsg
        refine ⟨"Invalid price value: " ++ row.price, ?_⟩
        rw [show (": Invalid price value: " : String) = ": " ++ "Invalid price value: "
              from rfl]
        simp only [String.append_assoc]
    | false =>
      have hnn : jsParseFloat row.price ≠ .nan := by
        intro hx
        rw [hx] at hnan
        simp [JSFloat.isNaNB] at hnan
      simp only [Bool.false_eq_true, if_false]
      by_cases hpg : row.pages == ""
      · rw [if_pos hpg]
        constructor
        · simp only [true_iff]
          refine ⟨e1, e2, e3, e4, hnn, ?_⟩
          intro hne
          exact absurd (by simpa using hpg) hne
        · intro msg hmsg
          cases hmsg
      · rw [if_neg hpg]
        have hpne : row.pages ≠ "" := by simpa using hpg
        cases hpi : jsParseInt row.pages with
        | none =>
          dsimp only
          constructor
          · simp only [reduceCtorEq, false_iff]
            intro hall
            obtain ⟨p, hp, _⟩ := hall.2.2.2.2.2 hpne
            cases hp
          · intro msg hmsg
            cases hmsg
            refine ⟨"Invalid pages value: " ++ row.pages, ?_⟩
            rw [show (": Invalid pages value: " : String) = ": " ++ "Invalid pages value: "
                  from rfl]
            simp only [String.append_assoc]
        | some p =>
          dsimp only
          by_cases hlt : p < 1
          · rw [if_pos hlt]
            constructor
            · simp only [reduceCtorEq, false_iff]
              intro hall
              obtain ⟨p', hp', hge⟩ := hall.2.2.2.2.2 hpne
              have : p' = p := by injection hp' with h; exact h.symm
              omega
            · intro msg hmsg
              cases hmsg
              refine ⟨"Invalid pages value: " ++ row.pages, ?_⟩
              rw [show (": Invalid pages value: " : String) = ": " ++ "Invalid pages value: "
                    from rfl]
              simp only [String.append_assoc]
          · rw [if_neg hlt]
            constructor
            · simp only [true_iff]
              exact ⟨e1, e2, e3, e4, hnn, fun _ => ⟨p, rfl, by omega⟩⟩
            · intro msg hmsg
              cases hmsg
  · rw [if_neg hm]
    constructor
    · simp only [reduceCtorEq, false_iff]
      intro hall
      exact hm ((requiredMissing_isEmpty row).mpr ⟨hall.1, hall.2.1, hall.2.2.1, hall.2.2.2.1⟩)
    · intro msg hmsg
      cases hmsg
      refine ⟨"Missing required fields: "
        ++ String.intercalate ", " (requiredMissing row), ?_⟩
      rw [show (": Missing required fields: " : String) = ": " ++ "Missing required fields: "
            from rfl]
      simp only [String.append_assoc]

theorem claim_c4_witness :
    validateRow rowGood 2 = none :=
  (claim_c4_validate_characterisation rowGood 2).1.mpr
    ⟨by decide, by decide, by decide, by decide, by decide,
     fun _ => ⟨180, by decide, by decide⟩⟩

theorem authorStep_frame (row : Row) (db : DB) (r : DB × Nat × Bool)
    (h : authorStep row db = .ok r) :
    r.1.stores = db.stores ∧ r.1.books = db.books ∧ r.1.store_books = db.store_books := by
  unfold authorStep at h
  cases hf : db.authors.find? (fun a => a.name == row.author_name) <;> rw [hf] at h
  case some a =>
    cases h
    exact ⟨rfl, rfl, rfl⟩
  case none =>
    by_cases hn : (row.author_name == "") = true
    · rw [if_pos hn] at h
      cases h
    · rw [if_neg hn] at h
      cases h
      exact ⟨rfl, rfl, rfl⟩

theorem bookStep_frame (row : Row) (db : DB) (aid : Nat) (r : DB × Nat × Bool)
    (h : bookStep row db aid = .ok r) :
    r.1.stores = db.stores ∧ r.1.authors = db.authors ∧
    r.1.store_books = db.store_books := by
  unfold bookStep at h
  cases hf : db.books.find? (fun b => b.name == row.book_name && b.author_id == aid) <;>
    rw [hf] at h <;> dsimp only at h
  case some b =>
    by_cases hp : (row.pages == "") = true
    · rw [if_pos hp] at h
      cases h
      exact ⟨rfl, rfl, rfl⟩
    · rw [if_neg hp] at h
      cases hpi : jsParseInt row.pages <;> rw [hpi] at h <;> dsimp only at h
      · cases h
      · rename_i v
        by_cases he : some v = b.pages
        · rw [if_pos he] at h
          cases h
          exact ⟨rfl, rfl, rfl⟩
        · rw [if_neg he] at h
          by_cases hl : v < 1
          · rw [if_pos hl] at h
            cases h
          · rw [if_neg hl] at h
            cases h
            exact ⟨rfl, rfl, rfl⟩
  case none =>
    by_cases hn : (row.book_name == "") = true
    · rw [if_pos hn] at h
      cases h
    · rw [if_neg hn] at h
      by_cases hp : (row.pages == "") = true
      · rw [if_pos hp] at h
        cases h
        exact ⟨rfl, rfl, rfl⟩
      · rw [if_neg hp] at h
        cases hpi : jsParseInt row.pages <;> rw [hpi] at h <;> dsimp only at h
        · cases h
        · rename_i v
          by_cases hl : v < 1
          · rw [if_pos hl] at h
            cases h
          · rw [if_neg hl] at h
            cases h
            exact ⟨rfl, rfl, rfl⟩

theorem inventoryStep_frame (q : ℚ) (db : DB) (sid bid : Nat) :
    (inventoryStep q db sid bid).1.stores = db.stores ∧
    (inventoryStep q db sid bid).1.authors = db.authors ∧
    (inventoryStep q db sid bid).1.books = db.books := by
  unfold inventoryStep
  cases h : db.store_books.find? (fun sb => sb.store_id == sid && sb.book_id == bid) <;> simp

theorem processRow_stores_cases (row : Row) (db : DB) :
    (processRow row db).2.1.stores = db.stores ∨
    ∃ r1, storeStep row db = .ok r1 ∧ (processRow row db).2.1.stores = r1.1.stores := by
  unfold processRow processRowF
  cases hs : storeStep row db with
  | error e => exact Or.inl rfl
  | ok r1 =>
    dsimp only
    cases ha : authorStep row r1.1 with
    | error e => exact Or.inl rfl
    | ok r2 =>
      dsimp only
      cases hb : bookStep row r2.1 r2.2.1 with
      | error e => exact Or.inl rfl
      | ok r3 =>
        dsimp only
        by_cases hg : ((jsParseFloat row.price).isNaNB || (jsParseFloat row.price).isNegB) = true
        · simp only [hg, if_true]
          exact Or.inl trivial
        · have hg' : ((jsParseFloat row.price).isNaNB || (jsParseFloat row.price).isNegB)
              = false := by simpa using hg
          simp only [hg', Bool.false_eq_true, if_false]
          cases hd : dec10_2 (jsParseFloat row.price) with
          | none => exact Or.inl rfl
          | some q =>
            dsimp only
            refine Or.inr ⟨r1, rfl, ?_⟩
            show (inventoryStep q r3.1 r1.2.1 r3.2.1).1.stores = r1.1.stores
            rw [(inventoryStep_frame q r3.1 r1.2.1 r3.2.1).1,
              (bookStep_frame row r2.1 r2.2.1 r3 hb).1,
              (authorStep_frame row r1.1 r2 ha).1]

/-- Claim C10: an empty address or logo in a row never changes an
existing store's stored address or logo, the store id and name are never
touched at all, and a newly created store persists empty address/logo as
`NULL` (`none`), not as the empty string. -/
theorem claim_c10_empty_fields_preserved (row : Row) (db : DB)
    (hnd : (db.stores.map (fun s => s.id)).Nodup) :
    (∀ i : Nat, i < db.stores.length →
      ∃ s' t, (processRow row db).2.1.stores[i]? = some s' ∧ db.stores[i]? = some t ∧
        s'.id = t.id ∧ s'.name = t.name ∧
        (row.store_address = "" → s'.address = t.address) ∧
        (row.logo = "" → s'.logo = t.logo)) ∧
    (db.stores.find? (fun s => s.name == row.store_name) = none →
      ∀ s' ∈ (processRow row db).2.1.stores, s'.name = row.store_name →
        (row.store_address = "" → s'.address = none) ∧
        (row.logo = "" → s'.logo = none)) := by
  rcases processRow_stores_cases row db with hc | ⟨r1, hs, hc⟩
  · constructor
    · intro i hi
      rw [hc]
      exact ⟨db.stores[i], db.stores[i], by simp [hi], by simp [hi], rfl, rfl,
        fun _ => rfl, fun _ => rfl⟩
    · intro hf s' hs' hname
      rw [hc] at hs'
      have := List.find?_eq_none.mp hf s' hs'
      simp [hname] at this
  · cases hf : db.stores.find? (fun s => s.name == row.store_name) with
    | some s =>
      have hs_mem : s ∈ db.stores := List.mem_of_find?_eq_some hf
      unfold storeStep at hs
      rw [hf] at hs
      cases hs
      dsimp only at hc
      rw [hc]
      constructor
      · intro i hi
        rw [List.getElem?_map]
        have hsome : db.stores[i]? = some db.stores[i] := by simp [hi]
        rw [hsome]
        refine ⟨_, db.stores[i], rfl, rfl, ?_⟩
        dsimp only
        by_cases hid : (db.stores[i].id == s.id) = true
        · have heq : db.stores[i] = s := by
            have hinj := List.inj_on_of_nodup_map hnd
            exact hinj (List.getElem?_mem hsome) hs_mem (by simpa using hid)
          rw [if_pos hid, heq]
          refine ⟨?_, ?_, ?_, ?_⟩
          · split_ifs <;> rfl
          · split_ifs <;> rfl
          · intro ha
            simp only [ha, ne_eq, not_true_eq_false, false_and, if_false]
            split_ifs <;> rfl
          · intro hl
            simp only [hl, ne_eq, not_true_eq_false, false_and, if_false]
            split_ifs <;> rfl
        · rw [if_neg hid]
          exact ⟨rfl, rfl, fun _ => rfl, fun _ => rfl⟩
      · intro hf2
        cases hf2
    | none =>
      unfold storeStep at hs
      rw [hf] at hs
      by_cases hn : (row.store_name == "") = true
      · rw [if_pos hn] at hs
        cases hs
      · rw [if_neg hn] at hs
        cases hs
        dsimp only at hc
        rw [hc]
        constructor
        · intro i hi
          rw [List.getElem?_append, if_pos hi]
          exact ⟨db.stores[i], db.stores[i], by simp [hi], by simp [hi], rfl, rfl,
            fun _ => rfl, fun _ => rfl⟩
        · intro _ s' hs' hname
          rcases List.mem_append.mp hs' with hmem | hmem
          · have := List.find?_eq_none.mp hf s' hmem
            simp [hname] at this
          · have hs2 := List.mem_singleton.mp hmem
            subst hs2
            exact ⟨fun ha => by simp [emptyToNull, ha], fun hl => by simp [emptyToNull, hl]⟩

theorem claim_c10_witness :
    ((processRow rowEmptyAddr db0).2.1.stores[0]?).map (fun s => s.address)
      = some (some "A") := by
  obtain ⟨s', t, h1, h2, _, _, haddr, _⟩ :=
    (claim_c10_empty_fields_preserved rowEmptyAddr db0 (by decide)).1 0 (by decide)
  have ht : t = { id := 0, name := "S", address := some "A", logo := some "L" } := by
    have hx : db0.stores[0]? =
        some { id := 0, name := "S", address := some "A", logo := some "L" } := by decide
    have := hx.symm.trans h2
    injection this with h
    exact h.symm
  have ha := haddr rfl
  rw [h1]
  simp [ha, ht]

theorem storeStep_found (row : Row) (db : DB) (s : StoreR)
    (hf : db.stores.find? (fun t => t.name == row.store_name) = some s) :
    ∃ db1, storeStep row db = .ok (db1, s.id, false) ∧
      db1.authors = db.authors ∧ db1.books = db.books ∧
      db1.store_books = db.store_books := by
  unfold storeStep
  rw [hf]
  exact ⟨_, rfl, rfl, rfl, rfl⟩

theorem authorStep_found (row : Row) (db : DB) (a : AuthorR)
    (hf : db.authors.find? (fun t => t.name == row.author_name) = some a) :
    authorStep row db = .ok (db, a.id, false) := by
  unfold authorStep
  rw [hf]

theorem bookStep_found (row : Row) (db : DB) (aid : Nat) (b : BookR)
    (hf : db.books.find? (fun t => t.name == row.book_name && t.author_id == aid) = some b)
    (hpg : pagesOk row) :
    ∃ db3, bookStep row db aid = .ok (db3, b.id, false) ∧
      db3.stores = db.stores ∧ db3.authors = db.authors ∧
      db3.store_books = db.store_books := by
  unfold bookStep
  rw [hf]
  dsimp only
  rcases hpg with hpg | ⟨v, hv, hv1⟩
  · rw [if_pos (by simpa using hpg)]
    exact ⟨_, rfl, rfl, rfl, rfl⟩
  · rw [if_neg (pages_ne_of_parse row v hv), hv]
    dsimp only
    by_cases he : some v = b.pages
    · rw [if_pos he]
      exact ⟨_, rfl, rfl, rfl, rfl⟩
    · rw [if_neg he, if_neg (by omega : ¬ v < 1)]
      exact ⟨_, rfl, rfl, rfl, rfl⟩

theorem sb_find_map_update (q : ℚ) (sid bid : Nat) (l : List StoreBookR)
    (sb : StoreBookR)
    (h : l.find? (fun t => t.store_id == sid && t.book_id == bid) = some sb) :
    (l.map (fun t => if t.store_id == sid && t.book_id == bid then
        { t with copies := t.copies + 1, price := q, sold_out := false } else t)).find?
      (fun t => t.store_id == sid && t.book_id == bid)
      = some { sb with copies := sb.copies + 1, price := q, sold_out := false } := by
  induction l with
  | nil => cases h
  | cons hd tl ih =>
    by_cases hp : (hd.store_id == sid && hd.book_id == bid) = true
    · simp only [List.find?_cons, hp] at h
      injection h with h
      subst h
      simp only [List.map_cons, if_pos hp, List.find?_cons]
      simp [hp]
    · have hpb : (hd.store_id == sid && hd.book_id == bid) = false := by
        cases hx : (hd.store_id == sid && hd.book_id == bid)
        · rfl
        · exact absurd hx hp
      simp only [List.find?_cons, hpb] at h
      simp only [List.map_cons, List.find?_cons, hpb, Bool.false_eq_true, if_false]
      exact ih h

theorem inventoryStep_found (q : ℚ) (db : DB) (sid bid : Nat) (sb : StoreBookR)
    (hf : db.store_books.find? (fun t => t.store_id == sid && t.book_id == bid) = some sb) :
    (inventoryStep q db sid bid).2 = false ∧
    (inventoryStep q db sid bid).1.store_books.find?
        (fun t => t.store_id == sid && t.book_id == bid)
      = some { sb with copies := sb.copies + 1, price := q, sold_out := false } := by
  unfold inventoryStep
  rw [hf]
  exact ⟨rfl, sb_find_map_update q sid bid db.store_books sb hf⟩

/-- Claim C2, counterexample: a row accepted by validation whose price
field is the literal `Infinity` repeats an existing (store, book)
position and passes the reconciliation guard (`Infinity` is neither NaN
nor negative), but the `DECIMAL(10,2)` write fails and the transaction
rolls back: the row errors, `copies` is not incremented, `sold_out`
stays true and the updated-inventory counter stays 0. -/
theorem claim_c2_counterexample :
    validateRow rowInf 2 = none ∧
    (jsParseFloat rowInf.price).isNaNB = false ∧
    (jsParseFloat rowInf.price).isNegB = false ∧
    db1ex.store_books.find? (fun t => t.store_id == 0 && t.book_id == 0)
      = some { store_id := 0, book_id := 0, price := 5, copies := 3, sold_out := true } ∧
    (processRow rowInf db1ex).1 = some "numeric field overflow" ∧
    (processRow rowInf db1ex).2.1 = db1ex ∧
    (processRow rowInf db1ex).2.2.inventoryUpdated = 0 := by
  refine ⟨?_, ?_, ?_, ?_, ?_, ?_, ?_⟩ <;> decide

/-- Claim C2, amended: re-ingesting a row whose (store, book) pair already has an
inventory position commits, increments `copies` by exactly one,
overwrites `price` with the stored decimal value of the row's price,
resets `sold_out` to false, and counts as an inventory update, not a
creation.  `q` is the `DECIMAL(10,2)` image of the parsed price; rows
whose price the column rejects (`Infinity`, overflow) fail instead. -/
theorem claim_c2_reingest_updates (row : Row) (db : DB) (s : StoreR) (a : AuthorR)
    (b : BookR) (sb : StoreBookR) (q : ℚ)
    (hs : db.stores.find? (fun t => t.name == row.store_name) = some s)
    (ha : db.authors.find? (fun t => t.name == row.author_name) = some a)
    (hb : db.books.find? (fun t => t.name == row.book_name && t.author_id == a.id) = some b)
    (hsb : db.store_books.find? (fun t => t.store_id == s.id && t.book_id == b.id) = some sb)
    (hpg : pagesOk row)
    (hp : (jsParseFloat row.price).isNaNB = false)
    (hn : (jsParseFloat row.price).isNegB = false)
    (hdec : dec10_2 (jsParseFloat row.price) = some q) :
    (processRow row db).1 = none ∧
    (processRow row db).2.2.inventoryUpdated = 1 ∧
    (processRow row db).2.2.inventoryCreated = 0 ∧
    (processRow row db).2.1.store_books.find?
        (fun t => t.store_id == s.id && t.book_id == b.id)
      = some ({ sb with copies := sb.copies + 1, price := q, sold_out := false }) := by
  have hb0 : ((jsParseFloat row.price).isNaNB || (jsParseFloat row.price).isNegB) = false := by
    rw [hp, hn]
    rfl
  obtain ⟨db1, hst, hfr1a, hfr1b, hfr1sb⟩ := storeStep_found row db s hs
  have hau : authorStep row db1 = .ok (db1, a.id, false) :=
    authorStep_found row db1 a (by rw [hfr1a]; exact ha)
  obtain ⟨db3, hbk, hfr3s, hfr3a, hfr3sb⟩ := bookStep_found row db1 a.id b
    (by rw [hfr1b]; exact hb) hpg
  have hinv := inventoryStep_found q db3 s.id b.id sb
    (by rw [hfr3sb, hfr1sb]; exact hsb)
  simp only [processRow, processRowF, hst, hau, hbk, hb0, Bool.false_eq_true, if_false, hdec]
  refine ⟨trivial, ?_, ?_, ?_⟩
  · simp [hinv.1]
  · simp [hinv.1]
  · exact hinv.2

theorem claim_c2_witness :
    (processRow rowRepeat db1ex).1 = none ∧
    (processRow rowRepeat db1ex).2.1.store_books.find?
        (fun t => t.store_id == 0 && t.book_id == 0)
      = some ({ store_id := 0, book_id := 0, price := 2,
                copies := 4, sold_out := false }) := by
  have h := claim_c2_reingest_updates rowRepeat db1ex
      { id := 0, name := "S", address := none, logo := none }
      { id := 0, name := "A" }
      { id := 0, name := "B", pages := none, author_id := 0 }
      { store_id := 0, book_id := 0, price := 5, copies := 3, sold_out := true }
      2 (by decide) (by decide) (by decide) (by decide) (Or.inl rfl)
      (by decide) (by decide) (by decide)
  exact ⟨h.1, h.2.2.2⟩

theorem processRow_emptyDB (row : Row) (q : ℚ)
    (hw : wellFormedRow row)
    (hp : (jsParseFloat row.price).isNaNB = false)
    (hn : (jsParseFloat row.price).isNegB = false)
    (hdec : dec10_2 (jsParseFloat row.price) = some q) :
    (processRow row emptyDB).2.1 = singletonInv row q 1 ∧
    (processRow row emptyDB).1 = none := by
  obtain ⟨h1, h2, h3, hpg⟩ := hw
  have hb0 : ((jsParseFloat row.price).isNaNB || (jsParseFloat row.price).isNegB) = false := by
    rw [hp, hn]
    rfl
  rcases hpg with hpg | ⟨v, hv, hv1⟩
  · constructor <;>
      simp [processRow, processRowF, storeStep, authorStep, bookStep, inventoryStep,
        emptyDB, singletonInv, hb0, h1, h2, h3, hpg, hdec]
  · have hpne : (row.pages == "") = false := by
      have hne := pages_ne_of_parse row v hv
      cases hx : (row.pages == "") with
      | false => rfl
      | true => exact absurd hx hne
    have hv1' : ¬ v < 1 := by omega
    constructor <;>
      simp [processRow, processRowF, storeStep, authorStep, bookStep, inventoryStep,
        emptyDB, singletonInv, hb0, h1, h2, h3, hpne, hv, hv1', hdec]

theorem processRow_singletonInv (row : Row) (q : ℚ) (k : Nat)
    (hw : wellFormedRow row)
    (hp : (jsParseFloat row.price).isNaNB = false)
    (hn : (jsParseFloat row.price).isNegB = false)
    (hdec : dec10_2 (jsParseFloat row.price) = some q) :
    (processRow row (singletonInv row q k)).2.1 = singletonInv row q (k + 1) ∧
    (processRow row (singletonInv row q k)).1 = none := by
  obtain ⟨h1, h2, h3, hpg⟩ := hw
  have hb0 : ((jsParseFloat row.price).isNaNB || (jsParseFloat row.price).isNegB) = false := by
    rw [hp, hn]
    rfl
  rcases hpg with hpg | ⟨v, hv, hv1⟩
  · by_cases hl : row.logo = "" <;> by_cases had : row.store_address = "" <;>
      constructor <;>
      simp [processRow, processRowF, storeStep, authorStep, bookStep, inventoryStep,
        singletonInv, emptyToNull, hb0, hl, had, hpg, hdec, List.find?_cons]
  · have hpne : (row.pages == "") = false := by
      have hne := pages_ne_of_parse row v hv
      cases hx : (row.pages == "") with
      | false => rfl
      | true => exact absurd hx hne
    have hv1' : ¬ v < 1 := by omega
    by_cases hl : row.logo = "" <;> by_cases had : row.store_address = "" <;>
      constructor <;>
      simp [processRow, processRowF, storeStep, authorStep, bookStep, inventoryStep,
        singletonInv, emptyToNull, hb0, hl, had, hpne, hv, hv1', hdec, List.find?_cons]

theorem iterRow_singleton (row : Row) (q : ℚ)
    (hw : wellFormedRow row)
    (hp : (jsParseFloat row.price).isNaNB = false)
    (hn : (jsParseFloat row.price).isNegB = false)
    (hdec : dec10_2 (jsParseFloat row.price) = some q) :
    ∀ (k m : Nat), iterRow row k (singletonInv row q m) = singletonInv row q (m + k) := by
  intro k
  induction k with
  | zero => intro m; rfl
  | succ k' ih =>
    intro m
    show iterRow row k' ((processRow row (singletonInv row q m)).2.1) = _
    rw [(processRow_singletonInv row q m hw hp hn hdec).1, ih (m + 1)]
    exact congrArg (singletonInv row q) (by omega)

/-- Claim C3, counterexample: the same validation-accepted
`Infinity`-price row fails at the `DECIMAL(10,2)` write on every
attempt, and each attempt rolls back, so ingesting this valid row N = 1
times into an empty database leaves the database empty instead of
creating one store, author, book and inventory position. -/
theorem claim_c3_counterexample :
    validateRow rowInf 2 = none ∧
    iterRow rowInf 1 emptyDB = emptyDB ∧
    (iterRow rowInf 1 emptyDB).stores = [] ∧
    (iterRow rowInf 1 emptyDB).store_books = [] := by
  refine ⟨?_, ?_, ?_, ?_⟩ <;> decide

/-- Claim C3, amended: reconciling the same normalized row N ≥ 1 times against an
empty database yields exactly one store, author, book and inventory
position for the row natural keys, with `copies = N`.  `q` is the
decimal value the column stores for the row's price; non-NaN,
non-negative is the reconciliation guard. -/
theorem claim_c3_idempotent_identity (row : Row) (N : Nat) (q : ℚ)
    (hw : wellFormedRow row)
    (hp : (jsParseFloat row.price).isNaNB = false)
    (hn : (jsParseFloat row.price).isNegB = false)
    (hdec : dec10_2 (jsParseFloat row.price) = some q)
    (hN : 1 ≤ N) :
    (iterRow row N emptyDB).stores
      = [{ id := 0, name := row.store_name,
           address := emptyToNull row.store_address,
           logo := emptyToNull row.logo }] ∧
    (iterRow row N emptyDB).authors = [{ id := 0, name := row.author_name }] ∧
    (iterRow row N emptyDB).books
      = [{ id := 0, name := row.book_name,
           pages := if row.pages == "" then none else jsParseInt row.pages,
           author_id := 0 }] ∧
    (iterRow row N emptyDB).store_books
      = [{ store_id := 0, book_id := 0, price := q,
           copies := N, sold_out := false }] := by
  obtain ⟨k, rfl⟩ : ∃ k, N = k + 1 := ⟨N - 1, by omega⟩
  have hiter : iterRow row (k + 1) emptyDB = singletonInv row q (k + 1) := by
    show iterRow row k ((processRow row emptyDB).2.1) = _
    rw [(processRow_emptyDB row q hw hp hn hdec).1, iterRow_singleton row q hw hp hn hdec k 1]
    exact congrArg (singletonInv row q) (by omega)
  rw [hiter]
  exact ⟨rfl, rfl, rfl, rfl⟩

theorem claim_c3_witness :
    (1 ≤ 2) ∧
    (iterRow rowGood 2 emptyDB).store_books
      = [{ store_id := 0, book_id := 0, price := mkRat 1599 100,
           copies := 2, sold_out := false }] :=
  ⟨by decide,
   (claim_c3_idempotent_identity rowGood 2 (mkRat 1599 100)
      ⟨by decide, by decide, by decide, Or.inr ⟨180, by decide, by decide⟩⟩
      (by decide) (by decide) (by decide) (by decide)).2.2.2⟩

/-- Claim C7, counterexample: on two positions tied at the same price,
the query (`ORDER BY price DESC LIMIT 5`, no secondary sort key) may
return them in reversed insertion order — both orders satisfy the query
relation — so the claimed insertion-order tie-break is not guaranteed by
the program. -/
theorem claim_c7_counterexample :
    priciestQuery dbTie 1 [sbTie1, sbTie0] ∧
    availPositions dbTie 1 = [sbTie0, sbTie1] ∧ sbTie0 ≠ sbTie1 :=
  ⟨⟨[sbTie1, sbTie0], by decide, by decide, rfl⟩, by decide, by decide⟩

/-- Claim C7, amended: every answer of the priciest-books query has at
most five entries, contains only non-sold-out positions of the requested
store, and lists prices in non-increasing order; the relative order of
equal-priced entries is left unspecified by the query. -/
theorem claim_c7_top_priciest (db : DB) (sid : Nat) (out : List StoreBookR)
    (h : priciestQuery db sid out) :
    out.length ≤ 5 ∧
    (∀ sb ∈ out, sb ∈ db.store_books ∧ sb.store_id = sid ∧ sb.sold_out = false) ∧
    (∀ (i j : Nat) (hi : i < out.length) (hj : j < out.length), i ≤ j →
      (out.get ⟨j, hj⟩).price ≤ (out.get ⟨i, hi⟩).price) := by
  obtain ⟨l, hperm, hsort, rfl⟩ := h
  refine ⟨?_, ?_, ?_⟩
  · simp
  · intro sb hsb
    have hl : sb ∈ l := List.mem_of_mem_take hsb
    have hav : sb ∈ availPositions db sid := hperm.mem_iff.mp hl
    have hm := List.mem_filter.mp hav
    refine ⟨hm.1, ?_, ?_⟩
    · have h2 := hm.2
      simp at h2
      exact h2.1
    · have h2 := hm.2
      simp at h2
      exact h2.2
  · intro i j hi hj hij
    have hst : List.Sorted priceGe (l.take 5) :=
      List.Pairwise.sublist (List.take_sublist _ _) hsort
    exact hst.rel_get_of_le (by exact hij)

theorem claim_c7_witness :
    priciestQuery dbPrices 1 priciestSample ∧
    priciestSample.length ≤ 5 ∧
    (priciestSample.get ⟨1, by decide⟩).price ≤ (priciestSample.get ⟨0, by decide⟩).price := by
  have hq : priciestQuery dbPrices 1 priciestSample :=
    ⟨priciestSample, by decide, by decide, rfl⟩
  have h := claim_c7_top_priciest dbPrices 1 priciestSample hq
  exact ⟨hq, h.1, h.2.2 0 1 (by decide) (by decide) (by decide)⟩

theorem authorJoin_ne_iff (db : DB) (sid : Nat) (a : AuthorR) :
    (!(authorJoinRows db sid a).isEmpty) = true ↔
      ∃ b ∈ db.books, b.author_id = a.id ∧
        ∃ sb ∈ db.store_books, sb.book_id = b.id ∧ sb.store_id = sid ∧
          sb.sold_out = false := by
  constructor
  · intro h
    have hex : ∃ x, x ∈ authorJoinRows db sid a := by
      cases hx : authorJoinRows db sid a with
      | nil => rw [hx] at h; simp at h
      | cons y ys => exact ⟨y, by simp [hx]⟩
    obtain ⟨x, hx⟩ := hex
    unfold authorJoinRows at hx
    rw [List.mem_flatMap] at hx
    obtain ⟨b', hb', hmem⟩ := hx
    rw [List.mem_map] at hmem
    obtain ⟨sb', hsb', _⟩ := hmem
    have hb2 := List.mem_filter.mp hb'
    have hsb2 := List.mem_filter.mp hsb'
    have hba : b'.author_id = a.id := by simpa using hb2.2
    have hcond := hsb2.2
    simp only [Bool.and_eq_true, beq_iff_eq] at hcond
    exact ⟨b', hb2.1, hba, sb', hsb2.1, hcond.1.1, hcond.1.2, by simpa using hcond.2⟩
  · rintro ⟨b, hbmem, hbid, sb, hsbmem, h1, h2, h3⟩
    have hx : (b, sb) ∈ authorJoinRows db sid a := by
      unfold authorJoinRows
      rw [List.mem_flatMap]
      refine ⟨b, List.mem_filter.mpr ⟨hbmem, by simp [hbid]⟩, ?_⟩
      rw [List.mem_map]
      exact ⟨sb, List.mem_filter.mpr ⟨hsbmem, by simp [h1, h2, h3]⟩, rfl⟩
    cases hempty : authorJoinRows db sid a with
    | nil => rw [hempty] at hx; cases hx
    | cons y ys => simp [hempty]

/-- Claim C6: the prolific-authors query returns at most five entries;
every entry is the aggregate of an author with at least one non-sold-out
position of one of their books in the store, carrying the author name,
distinct book count and summed copies; entries are ranked by book count
descending with ties broken by total copies descending; and every
qualifying author either appears or is outranked by all five shown
entries. -/
theorem claim_c6_top_prolific (db : DB) (sid : Nat) :
    (getTopProlificAuthors db sid).length ≤ 5 ∧
    (∀ e ∈ getTopProlificAuthors db sid,
      ∃ a ∈ db.authors, e = authorAgg db sid a ∧
        ∃ b ∈ db.books, b.author_id = a.id ∧
          ∃ sb ∈ db.store_books, sb.book_id = b.id ∧ sb.store_id = sid ∧
            sb.sold_out = false) ∧
    (∀ (i j : Nat) (hi : i < (prolificPairs db sid).length)
        (hj : j < (prolificPairs db sid).length), i ≤ j →
      ((prolificPairs db sid).get ⟨j, hj⟩).2.bookCount
          ≤ ((prolificPairs db sid).get ⟨i, hi⟩).2.bookCount ∧
      (((prolificPairs db sid).get ⟨i, hi⟩).2.bookCount
          = ((prolificPairs db sid).get ⟨j, hj⟩).2.bookCount →
        ((prolificPairs db sid).get ⟨j, hj⟩).2.totalCopies
          ≤ ((prolificPairs db sid).get ⟨i, hi⟩).2.totalCopies)) ∧
    (getTopProlificAuthors db sid = (prolificPairs db sid).map (fun p => p.2)) ∧
    (∀ a ∈ db.authors,
      (∃ b ∈ db.books, b.author_id = a.id ∧
        ∃ sb ∈ db.store_books, sb.book_id = b.id ∧ sb.store_id = sid ∧
          sb.sold_out = false) →
      authorAgg db sid a ∈ getTopProlificAuthors db sid ∨
        ((getTopProlificAuthors db sid).length = 5 ∧
          ∀ e ∈ getTopProlificAuthors db sid,
            (authorAgg db sid a).bookCount < e.bookCount ∨
              (e.bookCount = (authorAgg db sid a).bookCount ∧
                (authorAgg db sid a).totalCopies ≤ e.totalCopies))) := by
  have hsorted : List.Sorted prolificRel
      ((prolificGroups db sid).enum.insertionSort prolificRel) :=
    List.sorted_insertionSort prolificRel _
  have hst : List.Sorted prolificRel (prolificPairs db sid) :=
    List.Pairwise.sublist (List.take_sublist _ _) hsorted
  refine ⟨?_, ?_, ?_, rfl, ?_⟩
  · have h5 : (prolificPairs db sid).length ≤ 5 := by
      simp [prolificPairs]
    simpa [getTopProlificAuthors] using h5
  · intro e he
    rw [getTopProlificAuthors, List.mem_map] at he
    obtain ⟨pr, hpr, hpe⟩ := he
    have hmem : pr ∈ (prolificGroups db sid).enum.insertionSort prolificRel :=
      List.mem_of_mem_take hpr
    have henum : pr ∈ (prolificGroups db sid).enum :=
      (List.perm_insertionSort prolificRel _).mem_iff.mp hmem
    obtain ⟨i, g⟩ := pr
    have hget : (prolificGroups db sid)[i]? = some g := by
      have := List.mk_mem_enum_iff_getElem?.mp henum
      simpa using this
    have hgmem : g ∈ prolificGroups db sid := List.getElem?_mem hget
    rw [prolificGroups, List.mem_map] at hgmem
    obtain ⟨a, haf, hag⟩ := hgmem
    have haf2 := List.mem_filter.mp haf
    obtain ⟨b, hb, hbid, sb, hsb, h1, h2, h3⟩ := (authorJoin_ne_iff db sid a).mp haf2.2
    exact ⟨a, haf2.1, by rw [← hpe, ← hag], b, hb, hbid, sb, hsb, h1, h2, h3⟩
  · intro i j hi hj hij
    have hr : prolificRel ((prolificPairs db sid).get ⟨i, hi⟩)
        ((prolificPairs db sid).get ⟨j, hj⟩) :=
      hst.rel_get_of_le (by exact hij)
    unfold prolificRel at hr
    constructor
    · omega
    · intro he
      omega
  · intro a ha havail
    have hfm : a ∈ db.authors.filter (fun a => !(authorJoinRows db sid a).isEmpty) :=
      List.mem_filter.mpr ⟨ha, (authorJoin_ne_iff db sid a).mpr havail⟩
    have hg : authorAgg db sid a ∈ prolificGroups db sid :=
      List.mem_map_of_mem _ hfm
    obtain ⟨i, hi, hgi⟩ := List.mem_iff_getElem.mp hg
    have hsome : (prolificGroups db sid)[i]? = some (authorAgg db sid a) := by
      rw [← hgi]
      simp [hi]
    have henum : (i, authorAgg db sid a) ∈ (prolificGroups db sid).enum :=
      List.mk_mem_enum_iff_getElem?.mpr hsome
    have hsmem : (i, authorAgg db sid a)
        ∈ (prolificGroups db sid).enum.insertionSort prolificRel :=
      (List.perm_insertionSort prolificRel _).mem_iff.mpr henum
    by_cases hcase : (i, authorAgg db sid a) ∈ prolificPairs db sid
    · left
      rw [getTopProlificAuthors]
      exact List.mem_map_of_mem _ hcase
    · right
      have hdrop : (i, authorAgg db sid a)
          ∈ ((prolificGroups db sid).enum.insertionSort prolificRel).drop 5 := by
        have := (List.take_append_drop 5
          ((prolificGroups db sid).enum.insertionSort prolificRel)) ▸ hsmem
        rcases List.mem_append.mp this with hm | hm
        · exact absurd hm hcase
        · exact hm
      have hlen5 : ((prolificGroups db sid).enum.insertionSort prolificRel).length > 5 := by
        by_contra hcon
        have : ((prolificGroups db sid).enum.insertionSort prolificRel).drop 5 = [] :=
          List.drop_eq_nil_of_le (by omega)
        rw [this] at hdrop
        cases hdrop
      constructor
      · have h6 : (prolificGroups db sid).length > 5 := by simpa using hlen5
        simp [getTopProlificAuthors, prolificPairs]
        omega
      · intro e he
        rw [getTopProlificAuthors, List.mem_map] at he
        obtain ⟨pr, hpr, hpe⟩ := he
        have hrel : prolificRel pr (i, authorAgg db sid a) :=
          List.Sorted.rel_of_mem_take_of_mem_drop hsorted hpr hdrop
        unfold prolificRel at hrel
        rw [← hpe]
        rcases hrel with h | ⟨heq, h2⟩
        · left
          exact h
        · right
          rcases h2 with h2 | ⟨h2eq, _⟩
          · exact ⟨heq, le_of_lt h2⟩
          · exact ⟨heq, le_of_eq h2eq.symm⟩

theorem claim_c6_witness :
    (getTopProlificAuthors dbAuthors 1).length ≤ 5 ∧
    authorAgg dbAuthors 1 { id := 1, name := "B" } ∈ getTopProlificAuthors dbAuthors 1 := by
  refine ⟨(claim_c6_top_prolific dbAuthors 1).1, ?_⟩
  have h := (claim_c6_top_prolific dbAuthors 1).2.2.2.2 { id := 1, name := "B" }
    (by decide)
    ⟨{ id := 2, name := "B1", pages := none, author_id := 1 }, by decide, by decide,
     { store_id := 1, book_id := 2, price := 1, copies := 2, sold_out := false },
     by decide, by decide, by decide, by decide⟩
  rcases h with h | ⟨hlen, _⟩
  · exact h
  · exfalso
    revert hlen
    decide

example : jsParseFloat "15.99" = .fin (mkRat 1599 100) := by decide
example : jsParseFloat "Infinity" = .inf := by decide
example : jsParseFloat "-3" = .fin (-3) := by decide
example : jsParseFloat "" = .nan := by decide
example : jsParseFloat "1e2" = .fin 100 := by decide
example : jsParseFloat "12.5abc" = .fin (mkRat 25 2) := by decide
example : jsParseFloat ".5" = .fin (mkRat 1 2) := by decide
example : jsParseFloat "2.5e-2" = .fin (mkRat 1 40) := by decide
example : jsParseFloat "." = .nan := by decide
example : jsParseInt "42.9" = some 42 := by decide
example : jsParseInt "abc" = none := by decide
example : jsParseInt "-7" = some (-7) := by decide
example :
    validateRow
      { store_name := "S", store_address := "", book_name := "B", pages := "",
        author_name := "A", price := "3", logo := "" } 2 = none := by decide
example :
    validateRow
      { store_name := "", store_address := "", book_name := "B", pages := "",
        author_name := "A", price := "3", logo := "" } 2 =
      some "Row 2: Missing required fields: store_name" := by decide

example :
    ((processCSV
        [{ store_name := "BookWorld", store_address := "", book_name := "Gatsby",
           pages := "180", author_name := "Fitzgerald", price := "15.99", logo := "" },
         { store_name := "BookWorld", store_address := "", book_name := "Gatsby",
           pages := "180", author_name := "Fitzgerald", price := "15.99", logo := "" }]
        emptyDB).1).store_books =
      [{ store_id := 0, book_id := 0, price := mkRat 1599 100,
         copies := 2, sold_out := false }] := by decide

example :
    ((processCSV
        [{ store_name := "S", store_address := "", book_name := "B",
           pages := "", author_name := "A", price := "-4", logo := "" }]
        emptyDB).1) = emptyDB := by decide

end Ovarc
